import Mathlib

/-!
Shallow embedding of the `gomigrate` migration engine
(`migration.go` and the main engine file) in Lean 4, with theorems
checking the natural-language specification against the code.

Modelling conventions:
* Go `map[uint64]*Migration` is modelled as an association list
  `Registry := List (Nat × Migration)` with pairwise-distinct keys
  (`keysNodup`); in-place mutation through a `*Migration` pointer is
  modelled by rewriting the entry for that key (`setReg`).
* Go `uint64` ids become `Nat` (no arithmetic is performed on them, so
  overflow never matters), Go `int` statuses become `Int` (the status
  argument `-1` is meaningful).
* Database and filesystem effects are modelled by explicit environment
  records whose fields give the outcome of each external call, and the
  functions return explicit outcome values; a Go runtime panic (index
  out of range) is the `panic` outcome, and `logger.Fatalf` — which for
  the standard logger aborts the process — is the `fatal` outcome.
-/

namespace Gomigrate

/-- Opaque error values.  The named constructors are the package-level
error variables of the source; `external n` stands for an arbitrary
error produced by the database driver, the filesystem or the asset
bundle. -/
inductive GoError where
  | invalidMigrationFile
  | invalidMigrationPair
  | invalidMigrationsPath
  | invalidMigrationType
  | noActiveMigrations
  | unsupportedSource
  | external (n : Nat)
deriving DecidableEq, Repr

/-- Go: `migrationType` is a string type. -/
abbrev MigrationTypeS := String

/-- Go: `upMigration = migrationType("up")`. -/
def upMigration : MigrationTypeS := "up"

/-- Go: `downMigration = migrationType("down")`. -/
def downMigration : MigrationTypeS := "down"

/-- Go: migration status constants `Inactive = iota` (0). -/
def Inactive : Int := 0

/-- Go: migration status constant `Active` (1). -/
def Active : Int := 1

/-- Go struct `Migration` from `migration.go`. -/
structure Migration where
  DownPath : String
  Id : Nat
  Name : String
  Status : Int
  UpPath : String
deriving DecidableEq, Repr

/-- Go: `func (m *Migration) valid() bool`. -/
def Migration.valid (m : Migration) : Bool :=
  m.Id != 0 && m.Name != "" && m.UpPath != "" && m.DownPath != ""

/-- The migrator's `migrations map[uint64]*Migration`, as an association
list from id to migration. -/
abbrev Registry := List (Nat × Migration)

/-- Go map invariant: the keys of a `map` are pairwise distinct. -/
def keysNodup (reg : Registry) : Prop := (reg.map Prod.fst).Nodup

/-- Registry construction invariant: the entry stored at key `id` has
`Id = id` (discovery always stores `&Migration{Id: num, ...}` at `num`). -/
def coherent (reg : Registry) : Prop := ∀ p ∈ reg, p.1 = p.2.Id

instance (reg : Registry) : Decidable (keysNodup reg) :=
  List.nodupDecidable _

instance (reg : Registry) : Decidable (coherent reg) :=
  List.decidableBAll _ reg

/-- `m.migrations[id]` (the comma-ok form). -/
def lookupReg (reg : Registry) (id : Nat) : Option Migration :=
  (reg.find? (fun p => p.1 == id)).map Prod.snd

/-- In-place mutation of the `*Migration` stored at key `id`: every
entry with that key is rewritten to `m`. -/
def setReg (reg : Registry) (id : Nat) (m : Migration) : Registry :=
  reg.map (fun p => if p.1 = id then (p.1, m) else p)

/-- Modelled from the spec: the id sort `sort.Sort(uint64slice(ids))`
of `Migrations` — `uint64slice`, the `sort.Interface` instance whose
`Less` is numeric `<` on the ids, lives in a repository file not among
the given sources; per the spec the id list is sorted ascending by
numeric id. -/
def sortedIds (reg : Registry) : List Nat :=
  List.insertionSort (· ≤ ·) (reg.map Prod.fst)

/-- Go: `func (m *Migrator) Migrations(status int) []*Migration`.
Collects all keys, sorts them ascending, and keeps the migrations whose
`Status` matches (or all of them when `status == -1`). -/
def Migrator.Migrations (reg : Registry) (status : Int) : List Migration :=
  (sortedIds reg).filterMap (fun id =>
    match lookupReg reg id with
    | some migration =>
      if status == -1 || migration.Status == status then some migration else none
    | none => none)

theorem lookupReg_mem {reg : Registry} {id : Nat} {m : Migration}
    (h : lookupReg reg id = some m) : (id, m) ∈ reg := by
  induction reg with
  | nil => simp [lookupReg] at h
  | cons p rest ih =>
    rw [lookupReg, List.find?] at h
    by_cases hk : p.1 == id
    · rw [hk] at h
      simp only [cond_true, Option.map_some] at h
      have hpk : p.1 = id := by simpa using hk
      have hp : p = (id, m) := by
        cases p
        simp_all
      rw [hp] at *
      exact List.mem_cons_self _ _
    · rw [Bool.of_not_eq_true hk] at h
      simp only [cond_false] at h
      exact List.mem_cons_of_mem _ (ih h)

theorem mem_lookupReg {reg : Registry} {id : Nat} {m : Migration}
    (hnd : keysNodup reg) (h : (id, m) ∈ reg) : lookupReg reg id = some m := by
  induction reg with
  | nil => simp at h
  | cons p rest ih =>
    have hnd' : keysNodup rest := by
      simpa [keysNodup] using (List.nodup_cons.mp hnd).2
    rcases List.mem_cons.mp h with h1 | h2
    · subst h1
      simp [lookupReg, List.find?]
    · have hne : p.1 ≠ id := by
        intro he
        have : p.1 ∈ rest.map Prod.fst :=
          List.mem_map.mpr ⟨(id, m), h2, he.symm⟩
        exact (List.nodup_cons.mp hnd).1 this
      rw [lookupReg, List.find?]
      have : (p.1 == id) = false := by
        simpa using hne
      rw [this]
      simpa [lookupReg] using ih hnd' h2

theorem sortedIds_perm (reg : Registry) :
    (sortedIds reg).Perm (reg.map Prod.fst) :=
  List.perm_insertionSort _ _

theorem sortedIds_sorted (reg : Registry) :
    (sortedIds reg).Sorted (· ≤ ·) :=
  List.sorted_insertionSort _ _

theorem sortedIds_pairwise_lt (reg : Registry) (hnd : keysNodup reg) :
    (sortedIds reg).Pairwise (· < ·) := by
  have hnd' : (sortedIds reg).Nodup :=
    ((sortedIds_perm reg).nodup_iff).mpr hnd
  have hle := sortedIds_sorted reg
  exact List.Pairwise.imp₂ (fun a b hab hne => lt_of_le_of_ne hab hne)
    hle hnd'

/-- The ids of the returned list form a sublist of the sorted id list. -/
theorem migrations_map_id_sublist (reg : Registry) (status : Int)
    (hco : coherent reg) :
    ((Migrator.Migrations reg status).map Migration.Id).Sublist (sortedIds reg) := by
  rw [Migrator.Migrations]
  generalize sortedIds reg = ids
  induction ids with
  | nil => simp
  | cons id rest ih =>
    rw [List.filterMap]
    cases hl : lookupReg reg id with
    | none =>
      simpa [hl] using ih.cons id
    | some migration =>
      have hid : migration.Id = id := by
        have hm := lookupReg_mem hl
        exact (hco _ hm).symm
      by_cases hc : (status == -1 || migration.Status == status) = true
      · simp only [hl, hc, if_pos]
        rw [List.map_cons, hid]
        exact ih.cons₂ id
      · simp only [hl, Bool.of_not_eq_true hc, if_neg]
        simpa using ih.cons id

/-- Forward membership: anything `Migrations` returns is a registry
value whose status matches the filter. -/
theorem mem_migrations_of (reg : Registry) (status : Int) (mig : Migration)
    (h : mig ∈ Migrator.Migrations reg status) :
    mig ∈ reg.map Prod.snd ∧ (status = -1 ∨ mig.Status = status) := by
  rw [Migrator.Migrations] at h
  rcases List.mem_filterMap.mp h with ⟨id, _, hf⟩
  cases hl : lookupReg reg id with
  | none => rw [hl] at hf; simp at hf
  | some m =>
    rw [hl] at hf
    change (if (status == -1 || m.Status == status) = true
      then some m else none) = some mig at hf
    by_cases hc : (status == -1 || m.Status == status) = true
    · rw [if_pos hc] at hf
      have hm : m = mig := by simpa using hf
      subst hm
      refine ⟨List.mem_map.mpr ⟨(id, m), lookupReg_mem hl, rfl⟩, ?_⟩
      simpa using hc
    · rw [if_neg hc] at hf
      simp at hf

/-- Backward membership: every registry value whose status matches the
filter appears in the returned list (distinct keys required). -/
theorem migrations_of_mem (reg : Registry) (status : Int) (mig : Migration)
    (hnd : keysNodup reg)
    (hv : mig ∈ reg.map Prod.snd) (hs : status = -1 ∨ mig.Status = status) :
    mig ∈ Migrator.Migrations reg status := by
  rcases List.mem_map.mp hv with ⟨p, hp, hsnd⟩
  rw [Migrator.Migrations]
  refine List.mem_filterMap.mpr ⟨p.1, ?_, ?_⟩
  · exact ((sortedIds_perm reg).mem_iff).mpr (List.mem_map.mpr ⟨p, hp, rfl⟩)
  · have hl : lookupReg reg p.1 = some mig := by
      apply mem_lookupReg hnd
      have : p = (p.1, mig) := by
        cases p
        simp_all
      rw [← this]
      exact hp
    rw [hl]
    have hc : (status == -1 || mig.Status == status) = true := by
      rcases hs with h | h <;> simp [h]
    show (if (status == -1 || mig.Status == status) = true
      then some mig else none) = some mig
    rw [if_pos hc]

/-! ### Discovery (`FindMigrations`, `migration.go`) -/

/-- Result of a `FindMigrations` call.  Go returns `(map, error)`: on a
validation failure both the partially-built map and the error come
back; the asset variant returns a nil map (`none`) on an enumeration
error.  `panic` is a Go runtime fault (index out of range) and `fatal`
marks `logger.Fatalf`, which aborts the process under the standard
logger. -/
inductive FindResult where
  | ok (reg : Registry)
  | err (e : GoError) (reg : Option Registry)
  | fatal (e : GoError)
  | panic
deriving DecidableEq, Repr

/-- Lines 44–49 of `migration.go`: `path := []byte(f.Dir)`, then
`path[pathLength-1]` — an index out of range (`none`) when `Dir` is
empty — appending a trailing `/` when missing.  Go indexes bytes; `'/'`
is ASCII, so on valid UTF-8 the char-level comparison decides
identically. -/
def normalizeDir (dir : String) : Option (List Char) :=
  let path := dir.data
  let pathLength := path.length
  if pathLength = 0 then none
  else if path.getD (pathLength - 1) (Char.ofNat 0) ≠ '/' then some (path ++ ['/'])
  else some path

/-- The loop body shared by both variants: look the parsed id up, create
the entry on first sighting, then fill in the up or down location. -/
def insertArtifact (ms : Registry) (num : Nat) (mty : MigrationTypeS)
    (name loc : String) : Registry :=
  match lookupReg ms num with
  | some migration =>
    if mty == upMigration then setReg ms num {migration with UpPath := loc}
    else setReg ms num {migration with DownPath := loc}
  | none =>
    let migration : Migration :=
      {Id := num, Name := name, Status := Inactive, UpPath := "", DownPath := ""}
    if mty == upMigration then ms ++ [(num, {migration with UpPath := loc})]
    else ms ++ [(num, {migration with DownPath := loc})]

/-- The per-artifact loop shared by both `FindMigrations` variants.
`parse` models `parseMigrationPath`, a repository function not included
in the given sources: it extracts `(id, direction, name)` from an
artifact name, `none` meaning a parse error, in which case the artifact
is skipped (`continue`). -/
def processArtifacts (parse : String → Option (Nat × MigrationTypeS × String)) :
    List String → Registry → Registry
  | [], ms => ms
  | loc :: rest, ms =>
    match parse loc with
    | none => processArtifacts parse rest ms
    | some (num, mty, name) =>
      processArtifacts parse rest (insertArtifact ms num mty name loc)

/-- The validation loop: Go iterates the map and returns
`(ms, InvalidMigrationPair)` at the first invalid migration.  The error
value does not depend on the map's iteration order, so the model checks
all entries. -/
def validateRegistry (ms : Registry) : Option GoError :=
  if ms.all (fun p => p.2.valid) then none else some .invalidMigrationPair

/-- Go: `func (f FileMigrationSource) FindMigrations(logger Logger)`.
`base` models `filepath.Base` (parsing is applied to the base name, the
stored location is the full match), `globMatches`/`globErr` the outcome
of `filepath.Glob` (a glob error hits `logger.Fatalf`). -/
def FileMigrationSource.FindMigrations (dir : String) (base : String → String)
    (parse : String → Option (Nat × MigrationTypeS × String))
    (globMatches : List String) (globErr : Option GoError) : FindResult :=
  match normalizeDir dir with
  | none => .panic
  | some _ =>
    match globErr with
    | some e => .fatal e
    | none =>
      let ms := processArtifacts (fun s => parse (base s)) globMatches []
      match validateRegistry ms with
      | some e => .err e (some ms)
      | none => .ok ms

/-- Go: `func (a AssetMigrationSource) FindMigrations(logger Logger)`.
`assetDir` is the outcome of `a.AssetDir(a.Dir)`; its failure returns
`(nil, err)`. -/
def AssetMigrationSource.FindMigrations
    (assetDir : Except GoError (List String))
    (parse : String → Option (Nat × MigrationTypeS × String)) : FindResult :=
  match assetDir with
  | .error e => .err e none
  | .ok files =>
    let ms := processArtifacts parse files []
    match validateRegistry ms with
    | some e => .err e (some ms)
    | none => .ok ms

/-! ### `ApplyMigration` -/

/-- Which concrete `MigrationSource` the migrator holds (the type
switch in `ApplyMigration`). -/
inductive SourceKind where
  | file
  | asset
  | other
deriving DecidableEq, Repr

/-- Outcome of one `transaction.Exec(cmd)` call and of the
`result.RowsAffected()` call that follows it. -/
structure ExecOutcome where
  execErr : Option GoError := none
  resultNil : Bool := false
  rowsErr : Option GoError := none
deriving DecidableEq, Repr

/-- Environment of one `ApplyMigration` call: the outcome of every
external call it can make. -/
structure ApplyEnv where
  sourceKind : SourceKind
  readFile : String → Except GoError String
  asset : String → Except GoError String
  beginErr : Option GoError
  getMigrationCommands : String → List String
  exec : Nat → ExecOutcome
  logExecErr : Option GoError
  rollbackErr : Option GoError
  commitErr : Option GoError

/-- Lines 152–159: pick the path for the requested direction, or fail
with `InvalidMigrationType`. -/
def resolvePath (migration : Migration) (mType : MigrationTypeS) :
    Except GoError String :=
  if mType == upMigration then .ok migration.UpPath
  else if mType == downMigration then .ok migration.DownPath
  else .error .invalidMigrationType

/-- Lines 166–174: the type switch reading the artifact's content. -/
def readSource (env : ApplyEnv) (path : String) : Except GoError String :=
  match env.sourceKind with
  | .file => env.readFile path
  | .asset => env.asset path
  | .other => .error .unsupportedSource

/-- The statement loop (lines 188–211): execute each command in the
transaction; on an `Exec` or `RowsAffected` failure roll the
transaction back, the rollback error superseding the original error
when it is itself non-nil. -/
def runCmds (env : ApplyEnv) : Nat → List String → Option GoError
  | _, [] => none
  | i, _ :: rest =>
    let o := env.exec i
    match o.execErr with
    | some e =>
      some (match env.rollbackErr with
        | some re => re
        | none => e)
    | none =>
      if o.resultNil then runCmds env (i + 1) rest
      else
        match o.rowsErr with
        | some e =>
          some (match env.rollbackErr with
            | some re => re
            | none => e)
        | none => runCmds env (i + 1) rest

/-- Go: `func (m *Migrator) ApplyMigration(migration *Migration, mType
migrationType) error`.  Returns the migration as the call leaves it
(pointer mutation made explicit) together with the returned error value
(`none` = nil). -/
def applyMigration (env : ApplyEnv) (migration : Migration)
    (mType : MigrationTypeS) : Migration × Option GoError :=
  match resolvePath migration mType with
  | .error e => (migration, some e)
  | .ok path =>
    match readSource env path with
    | .error e => (migration, some e)
    | .ok content =>
      match env.beginErr with
      | some e => (migration, some e)
      | none =>
        match runCmds env 0 (env.getMigrationCommands content) with
        | some e => (migration, some e)
        | none =>
          -- Log the event (insert for up, delete for down); on failure
          -- roll back, the rollback error superseding.
          match env.logExecErr with
          | some e =>
            (migration, some (match env.rollbackErr with
              | some re => re
              | none => e))
          | none =>
            match env.commitErr with
            | some e => (migration, some e)
            | none =>
              if mType == upMigration then
                ({migration with Status := Active}, none)
              else
                ({migration with Status := Inactive}, none)

/-! ### Bulk operations (`Migrate`, `RollbackN`) -/

/-- Result of a bulk engine operation, carrying the registry as the
operation leaves it (`ApplyMigration` mutates migrations in place);
`panic` is a Go runtime fault (slice index out of range). -/
inductive RunResult where
  | ok (reg : Registry)
  | err (e : GoError) (reg : Registry)
  | panic
deriving DecidableEq, Repr

/-- The loop of `Migrate` (lines 250–254): apply each listed migration
upward, stopping at the first error; the `Nat` counts the
`ApplyMigration` calls made.  `envs k` is the environment of the k-th
call. -/
def migrateLoop (envs : Nat → ApplyEnv) :
    List Migration → Registry → Nat → RunResult × Nat
  | [], reg, k => (.ok reg, k)
  | migration :: rest, reg, k =>
    match applyMigration (envs k) migration upMigration with
    | (m2, some e) => (.err e (setReg reg m2.Id m2), k + 1)
    | (m2, none) => migrateLoop envs rest (setReg reg m2.Id m2) (k + 1)

/-- Go: `func (m *Migrator) Migrate() error` (lines 249–256), paired
with the number of `ApplyMigration` calls it made. -/
def Migrator.Migrate (envs : Nat → ApplyEnv) (reg : Registry) : RunResult × Nat :=
  migrateLoop envs (Migrator.Migrations reg Inactive) reg 0

/-- The `for i := len(migrations)-1; i != last_migration; i--` loop of
`RollbackN` (lines 272–276).  `i` is a Go `int` (an `Int` here);
`migrations[i]` faults when `i` is outside the slice bounds.  The loop
makes at most `|migrations| + 2` condition checks before returning or
faulting, so the explicit fuel — set to that bound by `RollbackN` —
never runs out. -/
def rollbackLoop (envs : Int → ApplyEnv) (migrations : List Migration)
    (last : Int) : Nat → Registry → Int → RunResult
  | 0, _, _ => .panic
  | fuel + 1, reg, i =>
    if i = last then .ok reg
    else if h : 0 ≤ i ∧ i.toNat < migrations.length then
      match applyMigration (envs i) (migrations.get ⟨i.toNat, h.2⟩) downMigration with
      | (m2, some e) => .err e (setReg reg m2.Id m2)
      | (m2, none) => rollbackLoop envs migrations last fuel (setReg reg m2.Id m2) (i - 1)
    else .panic

/-- Go: `func (m *Migrator) RollbackN(n int) error` (lines 264–279). -/
def Migrator.RollbackN (envs : Int → ApplyEnv) (reg : Registry) (n : Int) :
    RunResult :=
  let migrations := Migrator.Migrations reg Active
  if migrations.length = 0 then .ok reg
  else
    rollbackLoop envs migrations ((migrations.length : Int) - 1 - n)
      (migrations.length + 2) reg ((migrations.length : Int) - 1)

/-! ### Bootstrap (`MigrationTableExists`, `CreateMigrationsTable`,
`NewMigratorWithLogger`, `getMigrationStatuses`) -/

/-- Outcome of the `QueryRow(...).Scan` probe in
`MigrationTableExists`: `sql.ErrNoRows`, a scanned row, or another
error. -/
inductive ProbeOutcome where
  | noRows
  | found
  | fail (e : GoError)
deriving DecidableEq, Repr

/-- Outcome of the per-migration log lookup in `getMigrationStatuses`. -/
inductive LookupOutcome where
  | noRows
  | found
  | fail (e : GoError)
deriving DecidableEq, Repr

/-- The value a helper hands back to `NewMigratorWithLogger`: a normal
return carrying an error value, or a `logger.Fatalf` abort (the
standard logger exits the process inside `Fatalf`). -/
inductive StepResult where
  | ret (e : Option GoError)
  | fatal (e : GoError)
deriving DecidableEq, Repr

/-- Result of engine construction. -/
inductive BootResult where
  | ok (reg : Registry)
  | err (e : GoError)
  | fatal (e : GoError)
deriving DecidableEq, Repr

/-- Environment of one `NewMigratorWithLogger` call. -/
structure BootEnv where
  probe : ProbeOutcome
  createErr : Option GoError
  findResult : Except GoError Registry
  logLookup : Nat → LookupOutcome

/-- Go: `func (m *Migrator) MigrationTableExists() (bool, error)`
(lines 42–57). -/
def migrationTableExists (env : BootEnv) : Bool × Option GoError :=
  match env.probe with
  | .noRows => (false, none)
  | .found => (true, none)
  | .fail e => (false, some e)

/-- Go: `func (m *Migrator) CreateMigrationsTable() error` (lines
60–69).  On `Exec` failure it calls `logger.Fatalf` (process abort for
the standard logger); the function has no branch returning a non-nil
error — its only `return` is `return nil`. -/
def createMigrationsTable (env : BootEnv) : StepResult :=
  match env.createErr with
  | some e => .fatal e
  | none => .ret none

/-- Go: `func (m *Migrator) getMigrationStatuses() error` (lines
105–126): per migration, a log lookup; `sql.ErrNoRows` leaves the
status, a found row sets it `Active`, another error is returned. -/
def getMigrationStatuses (env : BootEnv) : Registry → Except GoError Registry
  | [] => .ok []
  | (id, migration) :: rest =>
    match env.logLookup migration.Id with
    | .fail e => .error e
    | .noRows =>
      match getMigrationStatuses env rest with
      | .error e => .error e
      | .ok rest2 => .ok ((id, migration) :: rest2)
    | .found =>
      match getMigrationStatuses env rest with
      | .error e => .error e
      | .ok rest2 => .ok ((id, {migration with Status := Active}) :: rest2)

/-- Go: `func NewMigratorWithLogger(...) (*Migrator, error)` (lines
72–103).  The `.ret (some _)` branch mirrors the constructor's
`if err := migrator.CreateMigrationsTable(); err != nil` check; it is
unreachable because `createMigrationsTable` never returns a non-nil
error. -/
def NewMigratorWithLogger (env : BootEnv) : BootResult :=
  match migrationTableExists env with
  | (_, some e) => .err e
  | (tableExists, none) =>
    match (if tableExists then StepResult.ret none else createMigrationsTable env) with
    | .fatal e => .fatal e
    | .ret (some e) => .err e
    | .ret none =>
      match env.findResult with
      | .error e => .err e
      | .ok reg =>
        match getMigrationStatuses env reg with
        | .error e => .err e
        | .ok reg2 => .ok reg2

/-! ### Canonical all-success environments, used by concrete runs -/

/-- An `ApplyEnv` in which every external call succeeds (the split
yields no commands, reads return empty content). -/
def okApplyEnv : ApplyEnv where
  sourceKind := .file
  readFile := fun _ => .ok ""
  asset := fun _ => .ok ""
  beginErr := none
  getMigrationCommands := fun _ => []
  exec := fun _ => {}
  logExecErr := none
  rollbackErr := none
  commitErr := none

/-! ### Helper lemmas about `applyMigration` -/

/-- Every run of `ApplyMigration` either returns an error with the
migration untouched, or succeeds with `commitErr = none` and exactly
the status update of lines 239–243. -/
theorem applyMigration_cases (env : ApplyEnv) (migration : Migration)
    (mType : MigrationTypeS) :
    (∃ e, applyMigration env migration mType = (migration, some e)) ∨
    (env.commitErr = none ∧
      applyMigration env migration mType =
        ((if mType == upMigration then {migration with Status := Active}
          else {migration with Status := Inactive}), none)) := by
  rw [applyMigration]
  cases resolvePath migration mType with
  | error e => exact .inl ⟨e, rfl⟩
  | ok path =>
    dsimp only
    cases readSource env path with
    | error e => exact .inl ⟨e, rfl⟩
    | ok content =>
      dsimp only
      cases env.beginErr with
      | some e => exact .inl ⟨e, rfl⟩
      | none =>
        dsimp only
        cases runCmds env 0 (env.getMigrationCommands content) with
        | some e => exact .inl ⟨e, rfl⟩
        | none =>
          dsimp only
          cases env.logExecErr with
          | some e => exact .inl ⟨_, rfl⟩
          | none =>
            dsimp only
            cases hc : env.commitErr with
            | some e => exact .inl ⟨e, rfl⟩
            | none =>
              refine .inr ⟨rfl, ?_⟩
              dsimp only
              by_cases hu : (mType == upMigration) = true
              · rw [if_pos hu, if_pos hu]
              · rw [if_neg hu, if_neg hu]

/-- A successful upward `ApplyMigration` changes exactly the status, to
`Active`. -/
theorem applyMigration_up_ok (env : ApplyEnv) (migration m2 : Migration)
    (h : applyMigration env migration upMigration = (m2, none)) :
    m2 = {migration with Status := Active} := by
  rcases applyMigration_cases env migration upMigration with ⟨e, he⟩ | ⟨_, he⟩
  · rw [he] at h
    simp at h
  · rw [he] at h
    have : (upMigration == upMigration) = true := by decide
    rw [this] at h
    simp at h
    exact h.symm

/-- With the all-success environment, a downward apply flips exactly
the status to `Inactive`. -/
theorem applyMigration_okEnv_down (migration : Migration) :
    applyMigration okApplyEnv migration downMigration =
      ({migration with Status := Inactive}, none) := rfl

/-! ### C3 -/

/-- C3: in `ApplyMigration` the in-memory `Status` changes only when
the commit succeeds — on any returned error the migration is left
unchanged, a nil return implies the commit succeeded and sets `Active`
for up / `Inactive` for down, and when every stage before the commit
succeeds but the commit fails, the call returns exactly the commit
error with the migration unchanged. -/
theorem c3_status_flips_only_on_commit (env : ApplyEnv)
    (migration : Migration) (mType : MigrationTypeS) :
    ((applyMigration env migration mType).2.isSome = true →
      (applyMigration env migration mType).1 = migration) ∧
    ((applyMigration env migration mType).2 = none →
      env.commitErr = none ∧
      (mType = upMigration →
        (applyMigration env migration mType).1.Status = Active) ∧
      (mType = downMigration →
        (applyMigration env migration mType).1.Status = Inactive)) ∧
    (∀ path content e,
      resolvePath migration mType = .ok path →
      readSource env path = .ok content →
      env.beginErr = none →
      runCmds env 0 (env.getMigrationCommands content) = none →
      env.logExecErr = none →
      env.commitErr = some e →
      applyMigration env migration mType = (migration, some e)) := by
  refine ⟨?_, ?_, ?_⟩
  · intro hs
    rcases applyMigration_cases env migration mType with ⟨e, he⟩ | ⟨_, he⟩
    · rw [he]
    · rw [he] at hs
      simp at hs
  · intro hn
    rcases applyMigration_cases env migration mType with ⟨e, he⟩ | ⟨hc, he⟩
    · rw [he] at hn
      simp at hn
    · refine ⟨hc, ?_, ?_⟩
      · intro hup
        rw [he, hup]
        simp
      · intro hdown
        rw [he, hdown]
        have : (downMigration == upMigration) = false := by decide
        rw [this]
        simp
  · intro path content e hpath hread hbegin hrun hlog hcommit
    rw [applyMigration, hpath]
    dsimp only
    rw [hread]
    dsimp only
    rw [hbegin]
    dsimp only
    rw [hrun]
    dsimp only
    rw [hlog]
    dsimp only
    rw [hcommit]

/-- Witness for C3 at a concrete environment whose commit fails. -/
def c3Env : ApplyEnv :=
  {okApplyEnv with commitErr := some (.external 3)}

theorem c3_witness :
    (let r := applyMigration c3Env
      {DownPath := "d", Id := 1, Name := "m", Status := 0, UpPath := "u"}
      upMigration
     r.2.isSome = true ∧
     r.1 = {DownPath := "d", Id := 1, Name := "m", Status := 0, UpPath := "u"}) ∧
    applyMigration c3Env
      {DownPath := "d", Id := 1, Name := "m", Status := 0, UpPath := "u"}
      upMigration =
      ({DownPath := "d", Id := 1, Name := "m", Status := 0, UpPath := "u"},
        some (.external 3)) := by
  refine ⟨⟨by decide, ?_⟩, ?_⟩
  · exact (c3_status_flips_only_on_commit c3Env
      {DownPath := "d", Id := 1, Name := "m", Status := 0, UpPath := "u"}
      upMigration).1 (by decide)
  · exact (c3_status_flips_only_on_commit c3Env
      {DownPath := "d", Id := 1, Name := "m", Status := 0, UpPath := "u"}
      upMigration).2.2 "u" "" (.external 3) rfl rfl rfl rfl rfl rfl

/-! ### C4 -/

/-- A command execution that does not abort the transaction: `Exec`
returned no error, and either the result was nil or `RowsAffected`
returned no error. -/
def execOk (o : ExecOutcome) : Prop :=
  o.execErr = none ∧ (o.resultNil = true ∨ o.rowsErr = none)

/-- If the first `k` commands run clean and the `k`-th `Exec` fails,
the loop returns the statement error — superseded by the rollback
error when the rollback itself fails. -/
theorem runCmds_fail (env : ApplyEnv) (e : GoError) :
    ∀ (cmds : List String) (i k : Nat), k < cmds.length →
      (∀ j, j < k → execOk (env.exec (i + j))) →
      (env.exec (i + k)).execErr = some e →
      runCmds env i cmds =
        some (match env.rollbackErr with
          | some re => re
          | none => e) := by
  intro cmds
  induction cmds with
  | nil =>
    intro i k hk
    simp at hk
  | cons c rest ih =>
    intro i k hk hok hfail
    cases k with
    | zero =>
      rw [runCmds]
      have : (env.exec i).execErr = some e := by simpa using hfail
      rw [this]
    | succ k2 =>
      have h0 : execOk (env.exec i) := by
        simpa using hok 0 (Nat.succ_pos k2)
      rw [runCmds]
      rw [h0.1]
      have hrest : runCmds env (i + 1) rest =
          some (match env.rollbackErr with
            | some re => re
            | none => e) := by
        apply ih (i + 1) k2 (by simpa using hk)
        · intro j hj
          have := hok (j + 1) (by omega)
          have harith : i + (j + 1) = i + 1 + j := by omega
          rwa [harith] at this
        · have harith : i + (k2 + 1) = i + 1 + k2 := by omega
          rwa [harith] at hfail
      dsimp only
      rcases h0.2 with hnil | hrows
      · rw [hnil]
        simpa using hrest
      · by_cases hnil : (env.exec i).resultNil = true
        · rw [if_pos hnil]
          exact hrest
        · rw [if_neg hnil]
          rw [hrows]
          exact hrest

/-- C4: when the `k`-th split statement fails to execute inside the
transaction, `ApplyMigration` rolls the transaction back and returns
the statement error; if the rollback itself fails, the rollback error
supersedes it; in both cases the migration's `Status` is unchanged
(the whole migration value is returned untouched). -/
theorem c4_statement_failure_rolls_back (env : ApplyEnv)
    (migration : Migration) (mType : MigrationTypeS)
    (path content : String) (k : Nat) (e : GoError)
    (hpath : resolvePath migration mType = .ok path)
    (hread : readSource env path = .ok content)
    (hbegin : env.beginErr = none)
    (hk : k < (env.getMigrationCommands content).length)
    (hok : ∀ j, j < k → execOk (env.exec j))
    (hfail : (env.exec k).execErr = some e) :
    (env.rollbackErr = none →
      applyMigration env migration mType = (migration, some e)) ∧
    (∀ re, env.rollbackErr = some re →
      applyMigration env migration mType = (migration, some re)) := by
  have hrun := runCmds_fail env e (env.getMigrationCommands content) 0 k hk
    (by simpa using hok) (by simpa using hfail)
  constructor
  · intro hrb
    rw [hrb] at hrun
    rw [applyMigration, hpath]
    dsimp only
    rw [hread]
    dsimp only
    rw [hbegin]
    dsimp only
    rw [hrun]
  · intro re hrb
    rw [hrb] at hrun
    rw [applyMigration, hpath]
    dsimp only
    rw [hread]
    dsimp only
    rw [hbegin]
    dsimp only
    rw [hrun]

/-- Environment for the C4 witness: two commands, the second `Exec`
fails, the rollback succeeds. -/
def c4Env : ApplyEnv :=
  {okApplyEnv with
    getMigrationCommands := fun s => [s, s]
    exec := fun i => if i = 1 then {execErr := some (.external 4)} else {}}

theorem c4_witness :
    applyMigration c4Env
      {DownPath := "d", Id := 1, Name := "m", Status := 0, UpPath := "u"}
      upMigration =
      ({DownPath := "d", Id := 1, Name := "m", Status := 0, UpPath := "u"},
        some (.external 4)) :=
  (c4_statement_failure_rolls_back c4Env
    {DownPath := "d", Id := 1, Name := "m", Status := 0, UpPath := "u"}
    upMigration "u" "" 1 (.external 4) rfl rfl rfl (by decide)
    (by
      intro j hj
      have hj0 : j = 0 := by omega
      subst hj0
      exact ⟨rfl, Or.inr rfl⟩)
    (by decide)).1 rfl

/-! ### C8 and C9 -/

/-- C8: `RollbackN` with no active migrations is a no-op for every
`n`: nothing is reverted, the registry is unchanged, and no error is
returned. -/
theorem c8_rollbackN_no_active_noop (envs : Int → ApplyEnv)
    (reg : Registry) (n : Int)
    (h : Migrator.Migrations reg Active = []) :
    Migrator.RollbackN envs reg n = .ok reg := by
  rw [Migrator.RollbackN]
  simp [h]

theorem c8_witness :
    Migrator.Migrations
      [(1, {DownPath := "d", Id := 1, Name := "m", Status := 0, UpPath := "u"})]
      Active = [] ∧
    Migrator.RollbackN (fun _ => okApplyEnv)
      [(1, {DownPath := "d", Id := 1, Name := "m", Status := 0, UpPath := "u"})]
      5 =
      .ok [(1, {DownPath := "d", Id := 1, Name := "m", Status := 0, UpPath := "u"})] :=
  ⟨by decide,
    c8_rollbackN_no_active_noop (fun _ => okApplyEnv)
      [(1, {DownPath := "d", Id := 1, Name := "m", Status := 0, UpPath := "u"})]
      5 (by decide)⟩

/-- C9: `RollbackN 0` with a non-empty active list is a no-op: the
loop's stop index equals its start index, so no migration is reverted,
the registry is unchanged, and no error is returned. -/
theorem c9_rollbackN_zero_noop (envs : Int → ApplyEnv) (reg : Registry)
    (h : Migrator.Migrations reg Active ≠ []) :
    Migrator.RollbackN envs reg 0 = .ok reg := by
  have hlen : ¬((Migrator.Migrations reg Active).length = 0) := by
    simpa using h
  have hf : (Migrator.Migrations reg Active).length + 2 =
      ((Migrator.Migrations reg Active).length + 1) + 1 := rfl
  have hi : ((Migrator.Migrations reg Active).length : Int) - 1 =
      ((Migrator.Migrations reg Active).length : Int) - 1 - 0 := by ring
  rw [Migrator.RollbackN]
  rw [if_neg hlen, hf, rollbackLoop, if_pos hi]

theorem c9_witness :
    Migrator.Migrations
      [(1, {DownPath := "d", Id := 1, Name := "m", Status := 1, UpPath := "u"})]
      Active ≠ [] ∧
    Migrator.RollbackN (fun _ => okApplyEnv)
      [(1, {DownPath := "d", Id := 1, Name := "m", Status := 1, UpPath := "u"})]
      0 =
      .ok [(1, {DownPath := "d", Id := 1, Name := "m", Status := 1, UpPath := "u"})] :=
  ⟨by decide,
    c9_rollbackN_zero_noop (fun _ => okApplyEnv)
      [(1, {DownPath := "d", Id := 1, Name := "m", Status := 1, UpPath := "u"})]
      (by decide)⟩

/-! ### C1 -/

/-- When the stop index sits below `-1`, the rollback loop (all applies
succeeding) walks past index `0` and faults on the `migrations[-1]`
access. -/
theorem rollbackLoop_overrun (migrations : List Migration) (last : Int)
    (hlast : last < -1) :
    ∀ (fuel : Nat) (i : Int) (reg : Registry), -1 ≤ i →
      i < (migrations.length : Int) →
      (i + 2).toNat ≤ fuel →
      rollbackLoop (fun _ => okApplyEnv) migrations last fuel reg i = .panic := by
  intro fuel
  induction fuel with
  | zero =>
    intro i reg h1 h2 h3
    omega
  | succ f ih =>
    intro i reg h1 h2 h3
    rw [rollbackLoop]
    have hne : ¬(i = last) := by omega
    rw [if_neg hne]
    by_cases hi : 0 ≤ i
    · have hb : 0 ≤ i ∧ i.toNat < migrations.length := by omega
      rw [dif_pos hb]
      rw [applyMigration_okEnv_down]
      exact ih (i - 1) _ (by omega) (by omega) (by omega)
    · have hb : ¬(0 ≤ i ∧ i.toNat < migrations.length) := by omega
      rw [dif_neg hb]

/-- C1 counterexample registry: a single active migration. -/
def c1Reg : Registry :=
  [(1, {DownPath := "d", Id := 1, Name := "m", Status := 1, UpPath := "u"})]

/-- C1 counterexample: with one active migration, `RollbackN 2`
(`n` greater than the number of active migrations) does not clamp and
succeed — the loop runs past the bottom of the stack and faults on an
out-of-range index. -/
theorem c1_counterexample :
    Migrator.RollbackN (fun _ => okApplyEnv) c1Reg 2 = .panic ∧
    Migrator.RollbackN (fun _ => okApplyEnv) c1Reg 2 ≠
      .ok (setReg c1Reg 1
        {DownPath := "d", Id := 1, Name := "m", Status := 0, UpPath := "u"}) := by
  constructor
  · decide
  · decide

/-- C1 amended: with a non-empty active list and every apply
succeeding, `RollbackN n` for `n` greater than the number of active
migrations is not clamped: the loop index passes the bottom of the
slice and the `migrations[i]` access faults (index out of range), so
the call neither returns nil nor any error value. -/
theorem c1_amended_overlarge_n_panics (reg : Registry) (n : Int)
    (hne : Migrator.Migrations reg Active ≠ [])
    (hn : ((Migrator.Migrations reg Active).length : Int) < n) :
    Migrator.RollbackN (fun _ => okApplyEnv) reg n = .panic := by
  have hlen : ¬((Migrator.Migrations reg Active).length = 0) := by
    simpa using hne
  rw [Migrator.RollbackN]
  rw [if_neg hlen]
  apply rollbackLoop_overrun
  · omega
  · omega
  · omega
  · omega

theorem c1_witness :
    Migrator.Migrations c1Reg Active ≠ [] ∧
    ((Migrator.Migrations c1Reg Active).length : Int) < 2 ∧
    Migrator.RollbackN (fun _ => okApplyEnv) c1Reg 2 = .panic :=
  ⟨by decide, by decide,
    c1_amended_overlarge_n_panics c1Reg 2 (by decide) (by decide)⟩

/-! ### C7 -/

/-- Each element of `setReg reg id m` is either the rewritten entry or
an untouched entry with a different key. -/
theorem mem_setReg {reg : Registry} {id : Nat} {m : Migration}
    {p : Nat × Migration} (h : p ∈ setReg reg id m) :
    (p.1 = id ∧ p.2 = m) ∨ (p ∈ reg ∧ p.1 ≠ id) := by
  rcases List.mem_map.mp h with ⟨q, hq, hpq⟩
  by_cases hk : q.1 = id
  · rw [if_pos hk] at hpq
    subst hpq
    exact .inl ⟨hk, rfl⟩
  · rw [if_neg hk] at hpq
    subst hpq
    exact .inr ⟨hq, hk⟩

/-- Registry statuses seen in reachable states: each entry is either
`Inactive` or `Active`. -/
def statusesWellFormed (reg : Registry) : Prop :=
  ∀ p ∈ reg, p.2.Status = Inactive ∨ p.2.Status = Active

instance (reg : Registry) : Decidable (statusesWellFormed reg) :=
  List.decidableBAll _ reg

/-- After a successful run of the `Migrate` loop, every registry entry
is either `Active` or an entry the loop never touched (its key is not
among the listed migrations' ids). -/
theorem migrateLoop_ok_mem (envs : Nat → ApplyEnv) :
    ∀ (migs : List Migration) (reg reg2 : Registry) (k c : Nat),
      migrateLoop envs migs reg k = (.ok reg2, c) →
      ∀ p ∈ reg2, p.2.Status = Active ∨
        (p ∈ reg ∧ p.1 ∉ migs.map Migration.Id) := by
  intro migs
  induction migs with
  | nil =>
    intro reg reg2 k c h p hp
    rw [migrateLoop] at h
    have hr : reg = reg2 := by
      simpa using congrArg (fun x => x.1) h
    exact .inr ⟨hr ▸ hp, by simp⟩
  | cons mig rest ih =>
    intro reg reg2 k c h p hp
    rw [migrateLoop] at h
    rcases ha : applyMigration (envs k) mig upMigration with ⟨m2, r2⟩
    rw [ha] at h
    cases r2 with
    | some e => simp at h
    | none =>
      have hm2 : m2 = {mig with Status := Active} :=
        applyMigration_up_ok (envs k) mig m2 ha
      rcases ih _ _ _ _ h p hp with hA | ⟨hpmem, hpnot⟩
      · exact .inl hA
      · rcases mem_setReg hpmem with ⟨_, hpm⟩ | ⟨hmem, hne⟩
        · refine .inl ?_
          rw [hpm, hm2]
        · refine .inr ⟨hmem, ?_⟩
          have hid : m2.Id = mig.Id := by rw [hm2]
          rw [hid] at hne
          simp only [List.map_cons, List.mem_cons]
          intro hc
          rcases hc with hc | hc
          · exact hne hc
          · exact hpnot hc

/-- C7: `Migrate` is idempotent when no new artifacts are added —
after a successful run every registry entry is `Active`, the inactive
list of the resulting registry is empty, and a second `Migrate` makes
zero `ApplyMigration` calls (hence executes no SQL) and returns no
error, leaving the registry unchanged. -/
theorem c7_migrate_idempotent (envs envs2 : Nat → ApplyEnv)
    (reg reg2 : Registry) (c : Nat)
    (hnd : keysNodup reg) (hco : coherent reg)
    (hwf : statusesWellFormed reg)
    (hok : Migrator.Migrate envs reg = (.ok reg2, c)) :
    (∀ p ∈ reg2, p.2.Status = Active) ∧
    Migrator.Migrations reg2 Inactive = [] ∧
    Migrator.Migrate envs2 reg2 = (.ok reg2, 0) := by
  have hall : ∀ p ∈ reg2, p.2.Status = Active := by
    intro p hp
    rcases migrateLoop_ok_mem envs (Migrator.Migrations reg Inactive)
      reg reg2 0 c hok p hp with hA | ⟨hmem, hnot⟩
    · exact hA
    · rcases hwf p hmem with h0 | h1
      · exfalso
        apply hnot
        have hmm : p.2 ∈ Migrator.Migrations reg Inactive :=
          migrations_of_mem reg Inactive p.2 hnd
            (List.mem_map.mpr ⟨p, hmem, rfl⟩) (.inr h0)
        exact List.mem_map.mpr ⟨p.2, hmm, (hco p hmem).symm⟩
      · exact h1
  have hempty : Migrator.Migrations reg2 Inactive = [] := by
    rcases hni : Migrator.Migrations reg2 Inactive with _ | ⟨mig, rest⟩
    · rfl
    · exfalso
      have hmem : mig ∈ Migrator.Migrations reg2 Inactive := by
        rw [hni]
        exact List.mem_cons_self _ _
      rcases mem_migrations_of reg2 Inactive mig hmem with ⟨hv, hs⟩
      rcases List.mem_map.mp hv with ⟨p, hp, hpm⟩
      have := hall p hp
      rw [hpm] at this
      rcases hs with hs | hs
      · exact absurd hs (by decide)
      · rw [this] at hs
        exact absurd hs (by decide)
  refine ⟨hall, hempty, ?_⟩
  rw [Migrator.Migrate, hempty, migrateLoop]

/-- C7 witness registry: one inactive migration. -/
def c7Reg : Registry :=
  [(1, {DownPath := "d", Id := 1, Name := "m", Status := 0, UpPath := "u"})]

theorem c7_witness :
    keysNodup c7Reg ∧ coherent c7Reg ∧ statusesWellFormed c7Reg ∧
    Migrator.Migrate (fun _ => okApplyEnv) c7Reg =
      (.ok [(1, {DownPath := "d", Id := 1, Name := "m", Status := 1, UpPath := "u"})], 1) ∧
    ((∀ p ∈ [((1 : Nat),
        ({DownPath := "d", Id := 1, Name := "m", Status := 1, UpPath := "u"} : Migration))],
        p.2.Status = Active) ∧
      Migrator.Migrations
        [(1, {DownPath := "d", Id := 1, Name := "m", Status := 1, UpPath := "u"})]
        Inactive = [] ∧
      Migrator.Migrate (fun _ => okApplyEnv)
        [(1, {DownPath := "d", Id := 1, Name := "m", Status := 1, UpPath := "u"})] =
        (.ok [(1, {DownPath := "d", Id := 1, Name := "m", Status := 1, UpPath := "u"})], 0)) :=
  ⟨by decide, by decide, by decide, by decide,
    c7_migrate_idempotent (fun _ => okApplyEnv) (fun _ => okApplyEnv)
      c7Reg
      [(1, {DownPath := "d", Id := 1, Name := "m", Status := 1, UpPath := "u"})]
      1 (by decide) (by decide) (by decide) (by decide)⟩

/-! ### C6 -/

/-- C6: for every registry with distinct, coherent keys and every
status argument, `Migrations(status)` is strictly ascending by
migration id and contains exactly the registry's migrations whose
`Status` equals the argument — all of them when the argument is `-1`. -/
theorem c6_migrations_sorted_and_exact (reg : Registry) (status : Int)
    (hnd : keysNodup reg) (hco : coherent reg) :
    List.Chain' (· < ·) ((Migrator.Migrations reg status).map Migration.Id) ∧
    (∀ mig, mig ∈ Migrator.Migrations reg status ↔
      (mig ∈ reg.map Prod.snd ∧ (status = -1 ∨ mig.Status = status))) := by
  constructor
  · apply List.chain'_iff_pairwise.mpr
    exact List.Pairwise.sublist (migrations_map_id_sublist reg status hco)
      (sortedIds_pairwise_lt reg hnd)
  · intro mig
    constructor
    · exact mem_migrations_of reg status mig
    · rintro ⟨hv, hs⟩
      exact migrations_of_mem reg status mig hnd hv hs

/-- C6 witness registry: two migrations with unordered keys and mixed
statuses. -/
def c6Reg : Registry :=
  [(2, {DownPath := "d2", Id := 2, Name := "b", Status := 1, UpPath := "u2"}),
   (1, {DownPath := "d1", Id := 1, Name := "a", Status := 0, UpPath := "u1"})]

theorem c6_witness :
    keysNodup c6Reg ∧ coherent c6Reg ∧
    (List.Chain' (· < ·) ((Migrator.Migrations c6Reg (-1)).map Migration.Id) ∧
      (∀ mig, mig ∈ Migrator.Migrations c6Reg (-1) ↔
        (mig ∈ c6Reg.map Prod.snd ∧ ((-1 : Int) = -1 ∨ mig.Status = -1)))) :=
  ⟨by decide, by decide,
    c6_migrations_sorted_and_exact c6Reg (-1) (by decide) (by decide)⟩

/-! ### C5 -/

/-- The validation loop succeeds exactly when every entry is valid. -/
theorem validateRegistry_none {ms : Registry}
    (h : validateRegistry ms = none) : ∀ p ∈ ms, p.2.valid = true := by
  rw [validateRegistry] at h
  by_cases hall : ms.all (fun p => p.2.valid) = true
  · exact fun p hp => List.all_eq_true.mp hall p hp
  · rw [if_neg hall] at h
    simp at h

/-- The validation loop fails only with `InvalidMigrationPair`. -/
theorem validateRegistry_some {ms : Registry} {e : GoError}
    (h : validateRegistry ms = some e) : e = .invalidMigrationPair := by
  rw [validateRegistry] at h
  by_cases hall : ms.all (fun p => p.2.valid) = true
  · rw [if_pos hall] at h
    simp at h
  · rw [if_neg hall] at h
    simpa using h.symm

/-- C5: both discovery variants either return a registry in which
every migration satisfies the validity invariant, or fail with the
invalid-migration-pair error (given that the asset enumeration itself
succeeded); an unparseable artifact name is skipped and by itself
causes no failure. -/
theorem c5_discovery_valid_or_pair_error
    (dir : String) (base : String → String)
    (parse : String → Option (Nat × MigrationTypeS × String))
    (globMatches files : List String)
    (assetDir : Except GoError (List String))
    (hassets : assetDir = .ok files) :
    (∀ reg, FileMigrationSource.FindMigrations dir base parse globMatches none
        = .ok reg → ∀ p ∈ reg, p.2.valid = true) ∧
    (∀ e oreg, FileMigrationSource.FindMigrations dir base parse globMatches none
        = .err e oreg → e = .invalidMigrationPair) ∧
    (∀ reg, AssetMigrationSource.FindMigrations assetDir parse = .ok reg →
      ∀ p ∈ reg, p.2.valid = true) ∧
    (∀ e oreg, AssetMigrationSource.FindMigrations assetDir parse = .err e oreg →
      e = .invalidMigrationPair) ∧
    (∀ s rest ms, parse s = none →
      processArtifacts parse (s :: rest) ms = processArtifacts parse rest ms) := by
  subst hassets
  refine ⟨?_, ?_, ?_, ?_, ?_⟩
  · intro reg h
    rw [FileMigrationSource.FindMigrations] at h
    cases hn : normalizeDir dir with
    | none =>
      rw [hn] at h
      simp at h
    | some c =>
      rw [hn] at h
      dsimp only at h
      cases hv : validateRegistry
          (processArtifacts (fun s => parse (base s)) globMatches []) with
      | some e =>
        rw [hv] at h
        simp at h
      | none =>
        rw [hv] at h
        injection h with h2
        subst h2
        exact validateRegistry_none hv
  · intro e oreg h
    rw [FileMigrationSource.FindMigrations] at h
    cases hn : normalizeDir dir with
    | none =>
      rw [hn] at h
      simp at h
    | some c =>
      rw [hn] at h
      dsimp only at h
      cases hv : validateRegistry
          (processArtifacts (fun s => parse (base s)) globMatches []) with
      | some e2 =>
        rw [hv] at h
        injection h with h2 h3
        rw [← h2]
        exact validateRegistry_some hv
      | none =>
        rw [hv] at h
        simp at h
  · intro reg h
    rw [AssetMigrationSource.FindMigrations] at h
    cases hv : validateRegistry (processArtifacts parse files []) with
    | some e =>
      rw [hv] at h
      simp at h
    | none =>
      rw [hv] at h
      injection h with h2
      subst h2
      exact validateRegistry_none hv
  · intro e oreg h
    rw [AssetMigrationSource.FindMigrations] at h
    cases hv : validateRegistry (processArtifacts parse files []) with
    | some e2 =>
      rw [hv] at h
      injection h with h2 h3
      rw [← h2]
      exact validateRegistry_some hv
    | none =>
      rw [hv] at h
      simp at h
  · intro s rest ms hs
    rw [processArtifacts, hs]

theorem c5_witness :
    (Except.ok ["001_a_up.sql"] : Except GoError (List String)) =
      .ok ["001_a_up.sql"] ∧
    (∀ e oreg,
      AssetMigrationSource.FindMigrations
        (.ok ["001_a_up.sql"])
        (fun s => if s = "001_a_up.sql" then some (1, upMigration, "a") else none)
        = .err e oreg → e = .invalidMigrationPair) ∧
    AssetMigrationSource.FindMigrations
      (.ok ["001_a_up.sql"])
      (fun s => if s = "001_a_up.sql" then some (1, upMigration, "a") else none)
      = .err .invalidMigrationPair
        (some [(1,
          {DownPath := "", Id := 1, Name := "a", Status := 0, UpPath := "001_a_up.sql"})]) :=
  ⟨rfl,
    (c5_discovery_valid_or_pair_error "migrations" id
      (fun s => if s = "001_a_up.sql" then some (1, upMigration, "a") else none)
      [] ["001_a_up.sql"] (.ok ["001_a_up.sql"]) rfl).2.2.2.1,
    by decide⟩

/-! ### C10 -/

/-- A non-empty string has a non-empty character list. -/
theorem string_data_len_ne (dir : String) (h : dir ≠ "") :
    dir.data.length ≠ 0 := by
  intro h0
  apply h
  apply String.ext
  have h1 : dir.data = [] := List.length_eq_zero.mp h0
  rw [h1]

/-- C10: `FileMigrationSource.FindMigrations` indexes `Dir`'s last
byte before anything else: with a non-empty `Dir` the index is in
bounds and the operation never faults there, while the empty `Dir`
makes the index out of range and the call faults. -/
theorem c10_empty_dir_out_of_range (dir : String) (base : String → String)
    (parse : String → Option (Nat × MigrationTypeS × String))
    (globMatches : List String) (globErr : Option GoError) :
    (dir ≠ "" → (normalizeDir dir).isSome = true ∧
      FileMigrationSource.FindMigrations dir base parse globMatches globErr
        ≠ .panic) ∧
    (dir = "" → normalizeDir dir = none ∧
      FileMigrationSource.FindMigrations dir base parse globMatches globErr
        = .panic) := by
  constructor
  · intro h
    have hlen := string_data_len_ne dir h
    have hsome : ∃ c, normalizeDir dir = some c := by
      rw [normalizeDir]
      rw [if_neg hlen]
      by_cases hc : dir.data.getD (dir.data.length - 1) (Char.ofNat 0) ≠ '/'
      · rw [if_pos hc]
        exact ⟨_, rfl⟩
      · rw [if_neg hc]
        exact ⟨_, rfl⟩
    rcases hsome with ⟨c, hc⟩
    refine ⟨by rw [hc]; rfl, ?_⟩
    cases globErr with
    | some e =>
      rw [FileMigrationSource.FindMigrations, hc]
      simp
    | none =>
      rw [FileMigrationSource.FindMigrations, hc]
      dsimp only
      cases validateRegistry
          (processArtifacts (fun s => parse (base s)) globMatches []) with
      | some e => simp
      | none => simp
  · intro h
    subst h
    have hn : normalizeDir "" = none := rfl
    refine ⟨hn, ?_⟩
    cases globErr with
    | some e => rw [FileMigrationSource.FindMigrations, hn]
    | none => rw [FileMigrationSource.FindMigrations, hn]

theorem c10_witness :
    ("migrations" : String) ≠ "" ∧
    (normalizeDir "migrations").isSome = true ∧
    FileMigrationSource.FindMigrations "migrations" id (fun _ => none) [] none
      ≠ .panic ∧
    normalizeDir "" = none ∧
    FileMigrationSource.FindMigrations "" id (fun _ => none) [] none = .panic := by
  refine ⟨by decide, ?_, ?_, ?_, ?_⟩
  · exact ((c10_empty_dir_out_of_range "migrations" id (fun _ => none) [] none).1
      (by decide)).1
  · exact ((c10_empty_dir_out_of_range "migrations" id (fun _ => none) [] none).1
      (by decide)).2
  · exact ((c10_empty_dir_out_of_range "" id (fun _ => none) [] none).2 rfl).1
  · exact ((c10_empty_dir_out_of_range "" id (fun _ => none) [] none).2 rfl).2

/-! ### C2 -/

/-- C2 counterexample environment: the probe reports the table absent
and the creation statement fails. -/
def c2Env : BootEnv where
  probe := .noRows
  createErr := some (.external 2)
  findResult := .ok []
  logLookup := fun _ => .noRows

/-- C2 counterexample: with the table absent and creation failing,
construction does not report the creation failure to the caller as a
returned error — it ends in the `logger.Fatalf` process abort. -/
theorem c2_counterexample :
    NewMigratorWithLogger c2Env = .fatal (.external 2) ∧
    NewMigratorWithLogger c2Env ≠ .err (.external 2) := by
  constructor
  · rfl
  · decide

/-- C2 amended: when the probe reports the table absent and the
creation statement fails, no usable migrator is produced, but the
failure is not returned to the caller as an error: `CreateMigrationsTable`
reaches `logger.Fatalf` (a process abort under the standard logger) and
has no branch returning a non-nil error, so the constructor's
creation-error check is dead code. -/
theorem c2_amended_create_failure_is_fatal (env : BootEnv) (e : GoError)
    (hprobe : env.probe = .noRows) (hcreate : env.createErr = some e) :
    NewMigratorWithLogger env = .fatal e ∧
    (∀ reg, NewMigratorWithLogger env ≠ .ok reg) ∧
    (∀ e2, NewMigratorWithLogger env ≠ .err e2) ∧
    (∀ env2 : BootEnv, ∀ e2 : GoError,
      createMigrationsTable env2 ≠ .ret (some e2)) := by
  have hmain : NewMigratorWithLogger env = .fatal e := by
    rw [NewMigratorWithLogger, migrationTableExists, hprobe]
    dsimp only
    rw [if_neg (by simp : ¬(false = true)), createMigrationsTable, hcreate]
  refine ⟨hmain, ?_, ?_, ?_⟩
  · intro reg hc
    rw [hmain] at hc
    simp at hc
  · intro e2 hc
    rw [hmain] at hc
    simp at hc
  · intro env2 e2 hc
    rw [createMigrationsTable] at hc
    cases h2 : env2.createErr with
    | none =>
      rw [h2] at hc
      simp at hc
    | some e3 =>
      rw [h2] at hc
      simp at hc

theorem c2_witness :
    c2Env.probe = .noRows ∧ c2Env.createErr = some (.external 2) ∧
    (NewMigratorWithLogger c2Env = .fatal (.external 2) ∧
      (∀ reg, NewMigratorWithLogger c2Env ≠ .ok reg) ∧
      (∀ e2, NewMigratorWithLogger c2Env ≠ .err e2) ∧
      (∀ env2 : BootEnv, ∀ e2 : GoError,
        createMigrationsTable env2 ≠ .ret (some e2))) :=
  ⟨rfl, rfl, c2_amended_create_failure_is_fatal c2Env (.external 2) rfl rfl⟩

end Gomigrate
